import Mathlib

/-!
Shallow embedding of the MathParser expression evaluator
(src/MathParser.cpp, src/MathParser.h): a shunting-yard infix
evaluator with whitespace normalization, a regex-based validator and
tokenizer, unary/binary disambiguation of `+`/`-`, and an
operand/operator stack reduction engine.

Modelling conventions:
* `double` values are modelled by an arbitrary `LinearOrderedField`
  with a `FloorRing` (so that `modf`-style truncation is available);
  rational instantiation is used for executable checks.  The
  transcendental leaves (`pow`, `sin`, `cos`, `tan`, the constants
  `e` and `pi`) are parameters of the embedding (`TransOps`), since
  they are not rational operations.
* the ambient `current_value` argument (a `double` defaulting to
  quiet NaN, tested with `std::isnan`) is modelled as an `Option`:
  `none` is the NaN default.
* `size_t` positions are `Nat`; the `(size_t)-1` sentinel stored by
  the success constructor is `2 ^ 64 - 1` (64-bit `size_t`).
* strings are `String`/`List Char`; the source operates on bytes and
  all grammar characters are ASCII, so char index = byte offset.
-/

namespace MathParser

/-- `std::isspace` in the default locale: the six ASCII whitespace
characters matched by the `\s` class of the `spaces` regex. -/
def isSpaceChar (c : Char) : Bool :=
  c = ' ' || c = '\t' || c = '\n' || c = '\x0b' || c = '\x0c' || c = '\r'

/-- ASCII `::tolower`, applied characterwise by `evaluate_expression`. -/
def toLowerChar (c : Char) : Char :=
  if 'A' ≤ c ∧ c ≤ 'Z' then Char.ofNat (c.toNat + 32) else c

/-- Whitespace compression: `std::regex_replace(expression, spaces, " ")`
replaces every maximal run of whitespace by a single space.  The flag
records whether the previous character was part of a whitespace run. -/
def collapseWS : Bool → List Char → List Char
  | _, [] => []
  | prevSpace, c :: rest =>
    if isSpaceChar c then
      if prevSpace then collapseWS true rest
      else ' ' :: collapseWS true rest
    else c :: collapseWS false rest

/-- Normalization performed at the top of `evaluate_expression`:
compress whitespace, then fold to lower case. -/
def normalizeStr (s : String) : String :=
  String.mk ((collapseWS false s.data).map toLowerChar)

def isDigitChar (c : Char) : Bool := '0' ≤ c && c ≤ '9'

/-- Characters of the single-char operator class `[()+\-*\/^%x]`. -/
def isOpChar (c : Char) : Bool :=
  c = '(' || c = ')' || c = '+' || c = '-' || c = '*' || c = '/' ||
  c = '^' || c = '%' || c = 'x'

/-- Length of the optional exponent suffix `(?:e[+\-]?\d+)?` matching at
the front of `cs` (0 when the group matches empty). -/
def expSuffixLen (cs : List Char) : Nat :=
  match cs with
  | 'e' :: rest =>
    match rest with
    | c :: r2 =>
      if c = '+' ∨ c = '-' then
        let m := (r2.takeWhile isDigitChar).length
        if 0 < m then 2 + m else 0
      else
        let m := (rest.takeWhile isDigitChar).length
        if 0 < m then 1 + m else 0
    | [] => 0
  | _ => 0

/-- Length matched at the front of `cs` by the number core
`\d*[.]?\d+` under ECMAScript greedy backtracking. -/
def numberCoreLen (cs : List Char) : Option Nat :=
  let k := (cs.takeWhile isDigitChar).length
  if 0 < k then
    match cs.drop k with
    | '.' :: r2 =>
      let m := (r2.takeWhile isDigitChar).length
      if 0 < m then some (k + 1 + m) else some k
    | _ => some k
  else
    match cs with
    | '.' :: r =>
      let m := (r.takeWhile isDigitChar).length
      if 0 < m then some (1 + m) else none
    | _ => none

/-- Length matched by the full number alternative
`(?:\d*[.]?\d+)(?:e[+\-]?\d+)?`. -/
def matchNumberLen (cs : List Char) : Option Nat :=
  match numberCoreLen cs with
  | some L => some (L + expSuffixLen (cs.drop L))
  | none => none

/-- `ks` is a prefix of `cs` (used for the keyword alternatives). -/
def startsWithKw : List Char → List Char → Bool
  | [], _ => true
  | _ :: _, [] => false
  | k :: ks, c :: cs => k = c && startsWithKw ks cs

/-- Length matched by the keyword alternatives, in the order they
appear in the pattern: `cos|sin|tan`, `cot`, `csc`, `sec`, `e`, `pi`,
`tau`. -/
def keywordLen (cs : List Char) : Option Nat :=
  if startsWithKw ['c', 'o', 's'] cs then some 3
  else if startsWithKw ['s', 'i', 'n'] cs then some 3
  else if startsWithKw ['t', 'a', 'n'] cs then some 3
  else if startsWithKw ['c', 'o', 't'] cs then some 3
  else if startsWithKw ['c', 's', 'c'] cs then some 3
  else if startsWithKw ['s', 'e', 'c'] cs then some 3
  else if startsWithKw ['e'] cs then some 1
  else if startsWithKw ['p', 'i'] cs then some 2
  else if startsWithKw ['t', 'a', 'u'] cs then some 3
  else none

/-- ECMAScript match attempt at the front of `cs`: the alternatives of
`pattern_number_or_operator_or_spaces` (when `withSpaces = true`) or
`pattern_number_or_operator` (when `withSpaces = false`), tried in the
order they appear in the pattern; returns the matched length. -/
def matchAlt (withSpaces : Bool) (cs : List Char) : Option Nat :=
  match matchNumberLen cs with
  | some L => some L
  | none =>
    match cs with
    | [] => none
    | c :: _ =>
      if isOpChar c then some 1
      else
        match keywordLen cs with
        | some L => some L
        | none =>
          if withSpaces then
            let m := (cs.takeWhile isSpaceChar).length
            if 0 < m then some m else none
          else none

/-- Number of consecutive positions from the front of `cs` at which no
alternative of the validation pattern matches: the length of the
unmatched run reported by the `sregex_token_iterator(… , -1)` scan. -/
def gapLen : List Char → Nat
  | [] => 0
  | c :: rest =>
    match matchAlt true (c :: rest) with
    | some _ => 0
    | none => 1 + gapLen rest

/-- The validation scan: successive leftmost matches of the
`pattern_number_or_operator_or_spaces` regex; the first non-empty gap
between matches is returned as (offset, length).  Every successful
match has positive length (`matchAlt_pos` below), so `max 1 L = L`;
the `max` only makes each step consume at least one character.  The
recursion is structural on a fuel argument initialized to the string
length: since every step consumes a character, the fuel can reach 0
only on the empty list, where the fuel-exhaustion row returns the
same `none` as the empty-list row. -/
def firstGapFuel : Nat → List Char → Nat → Option (Nat × Nat)
  | 0, _, _ => none
  | _, [], _ => none
  | fuel + 1, c :: rest, i =>
    match matchAlt true (c :: rest) with
    | some L =>
      firstGapFuel fuel ((c :: rest).drop (max 1 L)) (i + max 1 L)
    | none => some (i, gapLen (c :: rest))

def firstGap (cs : List Char) : Option (Nat × Nat) :=
  firstGapFuel cs.length cs 0

/-- The tokenization scan: successive leftmost matches of
`pattern_number_or_operator` (no whitespace alternative), collected as
(offset, lexeme); unmatched characters are skipped.  As above,
`max 1 L = L` for every actual match, and the fuel (initialized to
the string length) can be exhausted only on the empty list, where the
result agrees with the empty-list row. -/
def scanToksFuel : Nat → List Char → Nat → List (Nat × List Char)
  | 0, _, _ => []
  | _, [], _ => []
  | fuel + 1, c :: rest, i =>
    match matchAlt false (c :: rest) with
    | some L =>
      (i, (c :: rest).take (max 1 L)) ::
        scanToksFuel fuel ((c :: rest).drop (max 1 L)) (i + max 1 L)
    | none => scanToksFuel fuel rest (i + 1)

def scanToks (cs : List Char) (i : Nat) : List (Nat × List Char) :=
  scanToksFuel cs.length cs i

/-- `MathParser::Status`. -/
inductive Status
  | SUCCESS | PARSING_ERROR | EVALUATION_ERROR
deriving DecidableEq

/-- `MathParser::ParsingErrorType`. -/
inductive ParsingErrorType
  | NONE | EMPTY | MISMATCHED_PARENS | SYNTAX_ERROR
deriving DecidableEq

/-- `MathParser::EvaluationErrorType`. -/
inductive EvaluationErrorType
  | NONE | DIVIDE_BY_ZERO | EXPECTED_CURRENT_VALUE | EXPECTED_MORE_ARGUMENTS
  | IMAGINARY_NUMBER | UNEXPECTED_TOKEN
deriving DecidableEq

/-- `MathParser::Operator::Associativity`. -/
inductive Associativity
  | NONE | LEFT | RIGHT
deriving DecidableEq

/-- `MathParser::Operator::Type`. -/
inductive OpType
  | NONE | ADD | COSINE | COSECANT | COTANGENT | DIVIDE | E | EXPONENT
  | MULTIPLY | PAREN_L | PAREN_R | PERCENTAGE | PI | SECANT | SINE
  | SUBTRACT | TANGENT | TAU | TIMES | UNARY_MINUS | UNARY_PLUS
deriving DecidableEq

/-- `MathParser::Config` (no default: the header default is `true`). -/
structure Config where
  use_degrees : Bool
deriving DecidableEq

/-- `MathParser::Operator`: kind, associativity, precedence, arity
("degree") and display name. -/
structure Operator where
  typ : OpType
  assoc : Associativity
  prec : Int
  degree : Nat
  name : String
deriving DecidableEq

/-- The static operator table of `init_operator_map`, accessed through
`Operator::from_type`; an unknown kind yields `null_operator()`
(`{NONE, NONE, -1}` with value-initialized degree and name). -/
def Operator.from_type : OpType → Operator
  | .PAREN_L => ⟨.PAREN_L, .NONE, 0, 0, "("⟩
  | .PAREN_R => ⟨.PAREN_R, .NONE, 0, 0, ")"⟩
  | .ADD => ⟨.ADD, .LEFT, 10, 2, "add"⟩
  | .SUBTRACT => ⟨.SUBTRACT, .LEFT, 10, 2, "sub"⟩
  | .DIVIDE => ⟨.DIVIDE, .LEFT, 20, 2, "div"⟩
  | .MULTIPLY => ⟨.MULTIPLY, .LEFT, 20, 2, "mul"⟩
  | .PERCENTAGE => ⟨.PERCENTAGE, .LEFT, 30, 1, "%"⟩
  | .TIMES => ⟨.TIMES, .LEFT, 30, 1, "x"⟩
  | .COSECANT => ⟨.COSECANT, .RIGHT, 40, 1, "csc"⟩
  | .COSINE => ⟨.COSINE, .RIGHT, 40, 1, "cos"⟩
  | .COTANGENT => ⟨.COTANGENT, .RIGHT, 40, 1, "cot"⟩
  | .SECANT => ⟨.SECANT, .RIGHT, 40, 1, "sec"⟩
  | .SINE => ⟨.SINE, .RIGHT, 40, 1, "sin"⟩
  | .TANGENT => ⟨.TANGENT, .RIGHT, 40, 1, "tan"⟩
  | .EXPONENT => ⟨.EXPONENT, .RIGHT, 90, 2, "exp"⟩
  | .UNARY_MINUS => ⟨.UNARY_MINUS, .RIGHT, 100, 1, "neg"⟩
  | .UNARY_PLUS => ⟨.UNARY_PLUS, .RIGHT, 100, 1, "pos"⟩
  | .E => ⟨.E, .LEFT, 200, 0, "e"⟩
  | .PI => ⟨.PI, .LEFT, 200, 0, "pi"⟩
  | .TAU => ⟨.TAU, .LEFT, 200, 0, "tau"⟩
  | .NONE => ⟨.NONE, .NONE, -1, 0, ""⟩

/-- `MathParser::Token::Id`. -/
inductive TokenId
  | NONE | ASTERISK | CARET | COS | COT | CSC | E | MINUS | PAREN_L
  | PAREN_R | PERCENT | PI | PLUS | SEC | SIN | SLASH | TAN | TAU | X
deriving DecidableEq

/-- `Token::string_to_id`: exact lexeme lookup; anything else is
`Id::NONE` (and will be classified as a number). -/
def string_to_id (s : String) : TokenId :=
  if s = "%" then .PERCENT
  else if s = "(" then .PAREN_L
  else if s = ")" then .PAREN_R
  else if s = "*" then .ASTERISK
  else if s = "+" then .PLUS
  else if s = "-" then .MINUS
  else if s = "/" then .SLASH
  else if s = "^" then .CARET
  else if s = "cos" then .COS
  else if s = "cot" then .COT
  else if s = "csc" then .CSC
  else if s = "e" then .E
  else if s = "pi" then .PI
  else if s = "sec" then .SEC
  else if s = "sin" then .SIN
  else if s = "tan" then .TAN
  else if s = "tau" then .TAU
  else if s = "x" then .X
  else .NONE

/-- `Token::id_to_operator`: maps a token id (plus the edge flag for
`+`/`-`, which distinguishes the unary from the binary kind) to its
operator. -/
def id_to_operator (id : TokenId) (left_is_edge : Bool) : Operator :=
  Operator.from_type
    (match id with
     | .ASTERISK => .MULTIPLY
     | .CARET => .EXPONENT
     | .CSC => .COSECANT
     | .COS => .COSINE
     | .COT => .COTANGENT
     | .E => .E
     | .NONE => .NONE
     | .PAREN_L => .PAREN_L
     | .PAREN_R => .PAREN_R
     | .PERCENT => .PERCENTAGE
     | .PI => .PI
     | .SEC => .SECANT
     | .SIN => .SINE
     | .SLASH => .DIVIDE
     | .TAN => .TANGENT
     | .TAU => .TAU
     | .X => .TIMES
     | .MINUS => if left_is_edge then .UNARY_MINUS else .SUBTRACT
     | .PLUS => if left_is_edge then .UNARY_PLUS else .ADD)

/-- Digit run to natural number, most significant first. -/
def digitsToNat : List Char → Nat → Nat
  | [], acc => acc
  | c :: r, acc => digitsToNat r (acc * 10 + (c.toNat - '0'.toNat))

/-- `atof` on the number lexemes produced by the tokenizer
(`digits [. digits] [e [+|-] digits]`), as an exact rational. -/
def atofQ (s : String) : ℚ :=
  let cs := s.data
  let ip := cs.takeWhile isDigitChar
  let r1 := cs.drop ip.length
  let fp :=
    match r1 with
    | '.' :: r => r.takeWhile isDigitChar
    | _ => []
  let r2 :=
    match r1 with
    | '.' :: r => r.drop (r.takeWhile isDigitChar).length
    | _ => r1
  let mantissa : ℚ :=
    (digitsToNat ip 0 : ℚ) + (digitsToNat fp 0 : ℚ) / (10 : ℚ) ^ fp.length
  let expo : ℤ :=
    match r2 with
    | 'e' :: '+' :: ds => (digitsToNat (ds.takeWhile isDigitChar) 0 : ℤ)
    | 'e' :: '-' :: ds => -(digitsToNat (ds.takeWhile isDigitChar) 0 : ℤ)
    | 'e' :: ds => (digitsToNat (ds.takeWhile isDigitChar) 0 : ℤ)
    | _ => 0
  mantissa * (10 : ℚ) ^ expo

/-- `MathParser::Token`: lexeme, byte offset in the normalized string,
id, resolved operator and numeric value.  The numeric value is stored
(as an exact rational) only for number lexemes; the source leaves it
NaN for operators and never reads it, here it is 0 and never read. -/
structure Token where
  lexeme : String
  position : Nat
  id : TokenId
  op : Operator
  value : ℚ
deriving DecidableEq

/-- The `Token` constructor: classification happens here.  A lexeme
whose id is `NONE` is a number (parsed with `atof`); anything else is
an operator resolved with the current edge flag. -/
def mkToken (s : String) (pos : Nat) (left_is_edge : Bool) : Token :=
  let id := string_to_id s
  { lexeme := s, position := pos, id := id,
    op := id_to_operator id left_is_edge,
    value := if id = .NONE then atofQ s else 0 }

/-- `token.type == Token::Type::NUMBER` (the constructor makes the type
`NUMBER` exactly when the id is `NONE`). -/
def Token.isNumber (t : Token) : Bool := t.id = .NONE

/-- The `left_is_edge` update performed after constructing each token:
edge iff the token is an operator other than a right parenthesis
(the `Type::NONE` disjunct is unreachable: the constructor only
produces `NUMBER` or `OPERATOR` tokens). -/
def nextEdge (t : Token) : Bool :=
  !t.isNumber && decide (t.op.typ ≠ OpType.PAREN_R)

/-- Classification of the scanned lexemes into tokens, threading the
edge flag; the engine starts with `left_is_edge = true`. -/
def classifyTokens : Bool → List (Nat × List Char) → List Token
  | _, [] => []
  | edge, (p, cs) :: rest =>
    let t := mkToken (String.mk cs) p edge
    t :: classifyTokens (nextEdge t) rest

/-- The transcendental leaves of the evaluator (`std::pow`, the trig
functions and the constants of `common::math`), parameters of the
embedding: they are not operations of an ordered field. -/
structure TransOps (F : Type) where
  powF : F → F → F
  sinF : F → F
  cosF : F → F
  tanF : F → F
  eF : F
  piF : F

/-- Truncation toward zero, as performed by `std::modf`'s integral
part. -/
def truncToZero {F : Type} [LinearOrderedField F] [FloorRing F] (b : F) : F :=
  if b < 0 then -((Int.floor (-b) : ℤ) : F) else ((Int.floor b : ℤ) : F)

/-- The fractional part returned by `std::modf`: same sign as the
argument (`modf (-0.5) = -0.5`). -/
def modfFrac {F : Type} [LinearOrderedField F] [FloorRing F] (b : F) : F :=
  b - truncToZero b

/-- The trig-argument conversion `value * DEG_TO_RAD` applied when
`config.use_degrees` holds (the source constant is `pi / 180`, with an
incidental narrowing to `float`; modelled exactly as `pi / 180`). -/
def trigArg {F : Type} [LinearOrderedField F] (ops : TransOps F)
    (cfg : Config) (v : F) : F :=
  if cfg.use_degrees then v * (ops.piF / 180) else v

/-- `Operator::eval`: checks the operand-stack depth against the
operator's degree, then performs the operator's action on the operand
stack (head = top).  `cv` is the ambient current value (`none` = NaN).
The `.error` results correspond to the non-`NONE`
`EvaluationErrorType` returns; `.ok` carries the updated stack.  The
two `[]`/short-list fallbacks inside the unary and binary blocks are
unreachable (the degree check precedes them, as in the source where
`values.top()` is only reached past the size check). -/
def opEval {F : Type} [LinearOrderedField F] [FloorRing F]
    (ops : TransOps F) (cfg : Config) (cv : Option F) (op : Operator)
    (values : List F) : Except EvaluationErrorType (List F) :=
  if values.length < op.degree then .error .EXPECTED_MORE_ARGUMENTS
  else
    match op.typ with
    | .NONE | .PAREN_L | .PAREN_R => .error .UNEXPECTED_TOKEN
    | .E => .ok (ops.eF :: values)
    | .PI => .ok (ops.piF :: values)
    | .TAU => .ok ((ops.piF * 2) :: values)
    | .COSECANT | .COSINE | .COTANGENT | .PERCENTAGE | .SECANT | .SINE
    | .TANGENT | .TIMES | .UNARY_MINUS | .UNARY_PLUS =>
      match values with
      | [] => .error .EXPECTED_MORE_ARGUMENTS
      | v :: rest =>
        match op.typ with
        | .COSECANT => .ok ((1 / ops.sinF (trigArg ops cfg v)) :: rest)
        | .COSINE => .ok (ops.cosF (trigArg ops cfg v) :: rest)
        | .COTANGENT => .ok ((1 / ops.tanF (trigArg ops cfg v)) :: rest)
        | .SECANT => .ok ((1 / ops.cosF (trigArg ops cfg v)) :: rest)
        | .SINE => .ok (ops.sinF (trigArg ops cfg v) :: rest)
        | .TANGENT => .ok (ops.tanF (trigArg ops cfg v) :: rest)
        | .PERCENTAGE =>
          match cv with
          | none => .error .EXPECTED_CURRENT_VALUE
          | some c => .ok ((v * c / 100) :: rest)
        | .TIMES =>
          match cv with
          | none => .error .EXPECTED_CURRENT_VALUE
          | some c => .ok ((v * c) :: rest)
        | .UNARY_MINUS => .ok ((v * (-1)) :: rest)
        | .UNARY_PLUS => .ok (v :: rest)
        | _ => .error .UNEXPECTED_TOKEN
    | .ADD | .DIVIDE | .EXPONENT | .MULTIPLY | .SUBTRACT =>
      match values with
      | b :: a :: rest =>
        match op.typ with
        | .ADD => .ok ((a + b) :: rest)
        | .SUBTRACT => .ok ((a - b) :: rest)
        | .DIVIDE =>
          if b = 0 then .error .DIVIDE_BY_ZERO else .ok ((a / b) :: rest)
        | .MULTIPLY => .ok ((a * b) :: rest)
        | .EXPONENT =>
          if a < 0 ∧ modfFrac b > 0 then .error .IMAGINARY_NUMBER
          else .ok (ops.powF a b :: rest)
        | _ => .error .UNEXPECTED_TOKEN
      | _ => .error .EXPECTED_MORE_ARGUMENTS

/-- `(size_t)-1` with a 64-bit `size_t`: the sentinel error position
stored by the success constructor of `Result`. -/
def SIZE_T_MINUS_ONE : Nat := 2 ^ 64 - 1

/-- `MathParser::Result`.  The `result` field is uninitialized by the
two error constructors; modelled as `Option F`, `none` when
uninitialized. -/
structure Result (F : Type) where
  status : Status
  result : Option F
  filtered_expression : String
  parsing_error : ParsingErrorType
  evaluation_error : EvaluationErrorType
  error_position : Nat
  error_length : Nat
deriving DecidableEq

/-- The `Result(ParsingErrorType, …)` constructor. -/
def mkParseError {F : Type} (pe : ParsingErrorType) (filtered : String)
    (pos : Nat) (len : Nat) : Result F :=
  ⟨.PARSING_ERROR, none, filtered, pe, .NONE, pos, len⟩

/-- The `Result(EvaluationErrorType, …)` constructor. -/
def mkEvalError {F : Type} (ee : EvaluationErrorType) (filtered : String)
    (pos : Nat) (len : Nat) : Result F :=
  ⟨.EVALUATION_ERROR, none, filtered, .NONE, ee, pos, len⟩

/-- The `Result(double)` constructor: empty filtered expression and
the `(size_t)-1` sentinel position with zero length. -/
def mkSuccess {F : Type} (v : F) : Result F :=
  ⟨.SUCCESS, some v, "", .NONE, .NONE, SIZE_T_MINUS_ONE, 0⟩

/-- The pop condition of the shunting-yard default-operator loop:
(incoming left-associative and its precedence ≤ top's) or (incoming
right-associative and its precedence < top's). -/
def condPop (incoming top : Token) : Bool :=
  (decide (incoming.op.assoc = .LEFT) &&
     decide (incoming.op.prec ≤ top.op.prec)) ||
  (decide (incoming.op.assoc = .RIGHT) &&
     decide (incoming.op.prec < top.op.prec))

/-- The default-operator `while` loop: pop and evaluate the top of the
operator stack while `condPop` holds, then push the incoming token;
an evaluation error aborts with the incoming token's position and
lexeme length. -/
def shuntPops {F : Type} [LinearOrderedField F] [FloorRing F]
    (ops : TransOps F) (cfg : Config) (cv : Option F) (input : String)
    (tok : Token) :
    List Token → List F → Except (Result F) (List Token × List F)
  | [], out => .ok ([tok], out)
  | t :: rest, out =>
    if condPop tok t then
      match opEval ops cfg cv t.op out with
      | .error e =>
        .error (mkEvalError e input tok.position tok.lexeme.length)
      | .ok out2 => shuntPops ops cfg cv input tok rest out2
    else .ok (tok :: t :: rest, out)

/-- The right-parenthesis loop: pop and evaluate until a left
parenthesis is found (discarded); an empty stack — initially or after
popping — is `MISMATCHED_PARENS` at the parenthesis' position (length
0, the constructor default); an evaluation error aborts with the
parenthesis token's position and lexeme length. -/
def closeParen {F : Type} [LinearOrderedField F] [FloorRing F]
    (ops : TransOps F) (cfg : Config) (cv : Option F) (input : String)
    (tok : Token) :
    List Token → List F → Except (Result F) (List Token × List F)
  | [], _ => .error (mkParseError .MISMATCHED_PARENS input tok.position 0)
  | t :: rest, out =>
    if t.op.typ = OpType.PAREN_L then .ok (rest, out)
    else
      match opEval ops cfg cv t.op out with
      | .error e =>
        .error (mkEvalError e input tok.position tok.lexeme.length)
      | .ok out2 => closeParen ops cfg cv input tok rest out2

/-- The final drain loop after the token stream ends: a remaining left
parenthesis is `MISMATCHED_PARENS` at position 0; otherwise pop and
evaluate, aborting on error with the popped token's position and
lexeme length.  (The source tests `PAREN_L` twice in its condition;
`PAREN_R` tokens are never pushed, so this is also the full check.) -/
def drainStack {F : Type} [LinearOrderedField F] [FloorRing F]
    (ops : TransOps F) (cfg : Config) (cv : Option F) (input : String) :
    List Token → List F → Except (Result F) (List F)
  | [], out => .ok out
  | t :: rest, out =>
    if t.op.typ = OpType.PAREN_L then
      .error (mkParseError .MISMATCHED_PARENS input 0 0)
    else
      match opEval ops cfg cv t.op out with
      | .error e =>
        .error (mkEvalError e input t.position t.lexeme.length)
      | .ok out2 => drainStack ops cfg cv input rest out2

/-- Sequential pop-and-evaluate of a list of operator tokens (head
first) against an operand stack: the common core of the three popping
loops, used to state what they evaluate. -/
def evalSeq {F : Type} [LinearOrderedField F] [FloorRing F]
    (ops : TransOps F) (cfg : Config) (cv : Option F) :
    List Token → List F → Except EvaluationErrorType (List F)
  | [], out => .ok out
  | t :: rest, out =>
    match opEval ops cfg cv t.op out with
    | .error e => .error e
    | .ok out2 => evalSeq ops cfg cv rest out2

/-- The main shunting-yard loop over the classified tokens, followed by
the drain: numbers are pushed on the operand stack, `(` on the
operator stack, `)` runs `closeParen`, any other operator runs
`shuntPops`.  `.ok` carries the final operand stack. -/
def shuntLoop {F : Type} [LinearOrderedField F] [FloorRing F]
    (ops : TransOps F) (cfg : Config) (cv : Option F) (input : String) :
    List Token → List Token → List F → Except (Result F) (List F)
  | [], stack, out => drainStack ops cfg cv input stack out
  | tok :: rest, stack, out =>
    if tok.isNumber then
      shuntLoop ops cfg cv input rest stack ((tok.value : F) :: out)
    else
      match tok.op.typ with
      | .PAREN_L => shuntLoop ops cfg cv input rest (tok :: stack) out
      | .PAREN_R =>
        match closeParen ops cfg cv input tok stack out with
        | .error r => .error r
        | .ok (stack2, out2) => shuntLoop ops cfg cv input rest stack2 out2
      | _ =>
        match shuntPops ops cfg cv input tok stack out with
        | .error r => .error r
        | .ok (stack2, out2) => shuntLoop ops cfg cv input rest stack2 out2

/-- The final classification of `evaluate_expression`: empty operand
stack is `EMPTY`, a single value is success, more than one value is
`SYNTAX_ERROR` (all three built with the constructor defaults: empty
filtered expression for the two parse errors, positions 0/0). -/
def classifyOutput {F : Type} : List F → Result F
  | [] => mkParseError .EMPTY "" 0 0
  | [v] => mkSuccess v
  | _ :: _ :: _ => mkParseError .SYNTAX_ERROR "" 0 0

/-- `MathParser::evaluate_expression`: normalize, validate (first
unmatched run is a `SYNTAX_ERROR` with its offset and length in the
normalized string), tokenize, classify, run the shunting-yard loop and
classify the final operand stack. -/
def evaluate_expression {F : Type} [LinearOrderedField F] [FloorRing F]
    (ops : TransOps F) (expr : String) (cfg : Config) (cv : Option F) :
    Result F :=
  let input := normalizeStr expr
  match firstGap input.data with
  | some (p, len) => mkParseError .SYNTAX_ERROR input p len
  | none =>
    let toks := classifyTokens true (scanToks input.data 0)
    match shuntLoop ops cfg cv input toks [] [] with
    | .error r => r
    | .ok out => classifyOutput out

/-- `std::pow` restricted to the rational model: exact on integral
exponents (the only exponents any claim's value depends on); on a
non-integral exponent the double result is irrational or NaN, outside
the rational model, and is represented by the placeholder 0. -/
def qpow (a b : ℚ) : ℚ := if b.den = 1 then a ^ b.num else 0

/-- Rational instantiation of the transcendental leaves: `qpow` for
`std::pow`; the trig functions and the constants `e`, `pi` take
placeholder values (their true values are irrational; no claim
depends on them). -/
def ratOps : TransOps ℚ :=
  ⟨qpow, fun _ => 0, fun _ => 0, fun _ => 0, 0, 0⟩

/-- The evaluator over the rational model, with the default
`use_degrees = true` configuration. -/
def evalQ (expr : String) (cv : Option ℚ) : Result ℚ :=
  evaluate_expression ratOps expr ⟨true⟩ cv

/-- The number core `\d*[.]?\d+` never matches empty. -/
theorem numberCoreLen_pos (cs : List Char) (L : Nat)
    (h : numberCoreLen cs = some L) : 0 < L := by
  simp only [numberCoreLen] at h
  split at h
  · split at h
    · split at h <;> (injection h with h; omega)
    · injection h with h; omega
  · split at h
    · split at h
      · injection h with h; omega
      · cases h
    · cases h

/-- The full number alternative never matches empty. -/
theorem matchNumberLen_pos (cs : List Char) (L : Nat)
    (h : matchNumberLen cs = some L) : 0 < L := by
  simp only [matchNumberLen] at h
  cases hc : numberCoreLen cs with
  | some L3 =>
    rw [hc] at h
    injection h with h
    have := numberCoreLen_pos cs L3 hc
    omega
  | none => rw [hc] at h; cases h

/-- The keyword alternatives never match empty. -/
theorem keywordLen_pos (cs : List Char) (L : Nat)
    (h : keywordLen cs = some L) : 0 < L := by
  simp only [keywordLen] at h
  repeat' split at h
  all_goals (injection h) <;> omega

/-- Every successful regex match consumes at least one character, so
the `max 1 L` in the two scanners is the identity on actual match
lengths. -/
theorem matchAlt_pos (withSpaces : Bool) (cs : List Char) (L : Nat)
    (h : matchAlt withSpaces cs = some L) : 0 < L := by
  cases cs with
  | nil =>
    have hq : matchAlt withSpaces [] = none := rfl
    rw [hq] at h
    cases h
  | cons c rest =>
    simp only [matchAlt] at h
    cases hn : matchNumberLen (c :: rest) with
    | some L2 =>
      simp only [hn, Option.some.injEq] at h
      have := matchNumberLen_pos (c :: rest) L2 hn
      omega
    | none =>
      simp only [hn] at h
      by_cases hop : isOpChar c = true
      · rw [if_pos hop] at h
        injection h with h
        omega
      · rw [if_neg hop] at h
        cases hk : keywordLen (c :: rest) with
        | some L2 =>
          simp only [hk, Option.some.injEq] at h
          have := keywordLen_pos (c :: rest) L2 hk
          omega
        | none =>
          simp only [hk] at h
          by_cases hws : withSpaces = true
          · rw [if_pos hws] at h
            by_cases hm : 0 < (List.takeWhile isSpaceChar (c :: rest)).length
            · rw [if_pos hm] at h
              injection h with h
              omega
            · rw [if_neg hm] at h
              cases h
          · rw [if_neg hws] at h
            cases h

/-- Collapsing an all-whitespace tail while already inside a
whitespace run yields nothing. -/
theorem collapseWS_true_of_space (cs : List Char)
    (h : ∀ c ∈ cs, isSpaceChar c) : collapseWS true cs = [] := by
  induction cs with
  | nil => rfl
  | cons c rest ih =>
    have hc : isSpaceChar c := h c (by simp)
    simp only [collapseWS, hc, if_true]
    exact ih (fun d hd => h d (by simp [hd]))

/-- Normalizing an all-whitespace string yields the empty string or a
single space. -/
theorem normalizeStr_of_space (s : String) (h : ∀ c ∈ s.data, isSpaceChar c) :
    normalizeStr s = "" ∨ normalizeStr s = " " := by
  cases hcs : s.data with
  | nil => left; simp [normalizeStr, hcs, collapseWS]
  | cons c rest =>
    right
    rw [hcs] at h
    have hc : isSpaceChar c := h c (by simp)
    have ht : collapseWS true rest = [] :=
      collapseWS_true_of_space rest (fun d hd => h d (by simp [hd]))
    simp only [normalizeStr, hcs, collapseWS, hc, if_true, ht]
    rfl

/-- C1: on every input that passes validation and whose reduction
completes without error, the final operand stack classifies the
outcome: empty stack is the `EMPTY` parse error, a single value is
success with that value, more than one value is the `SYNTAX_ERROR`
parse error; and every input consisting only of whitespace (including
the empty input) yields `EMPTY`. -/
theorem final_stack_classification :
    (∀ (s : String) (cv : Option ℚ) (stk : List ℚ),
       firstGap (normalizeStr s).data = none →
       shuntLoop ratOps ⟨true⟩ cv (normalizeStr s)
         (classifyTokens true (scanToks (normalizeStr s).data 0)) [] [] =
         .ok stk →
       evalQ s cv =
         match stk with
         | [] => mkParseError .EMPTY "" 0 0
         | [v] => mkSuccess v
         | _ :: _ :: _ => mkParseError .SYNTAX_ERROR "" 0 0) ∧
    (∀ (s : String) (cv : Option ℚ), (∀ c ∈ s.data, isSpaceChar c) →
       evalQ s cv = mkParseError .EMPTY "" 0 0) := by
  constructor
  · intro s cv stk h1 h2
    simp only [evalQ, evaluate_expression, h1, h2]
    cases stk with
    | nil => rfl
    | cons v rest => cases rest <;> rfl
  · intro s cv hws
    rcases normalizeStr_of_space s hws with h | h <;>
      simp only [evalQ, evaluate_expression, h] <;> rfl

/-- Witness for C1: `"1 2 3"` passes validation, reduces to a
three-value stack and is classified `SYNTAX_ERROR`; the whitespace
input `" "` yields `EMPTY`. -/
theorem final_stack_classification_witness :
    evalQ "1 2 3" none = mkParseError .SYNTAX_ERROR "" 0 0 ∧
    evalQ " " none = mkParseError .EMPTY "" 0 0 :=
  ⟨final_stack_classification.1 "1 2 3" none [3, 2, 1]
      (by decide) (by with_unfolding_all rfl),
   final_stack_classification.2 " " none (by decide)⟩

/-- C3: reading a non-parenthesis operator token pops and evaluates
exactly the maximal prefix of the operator stack satisfying the
precedence/associativity condition (left-associative and precedence ≤
top's, or right-associative and precedence < top's), then pushes the
token; an evaluation failure aborts with the incoming token's
position; the exponent operator is right-associative, and
`"2 ^ 2 ^ 3"` evaluates to `2 ^ (2 ^ 3) = 256`. -/
theorem operator_pop_loop :
    (∀ {F : Type} [inst1 : LinearOrderedField F] [inst2 : FloorRing F]
       (ops : TransOps F) (cfg : Config) (cv : Option F) (input : String)
       (tok : Token) (stack : List Token) (out : List F),
       shuntPops ops cfg cv input tok stack out =
         match evalSeq ops cfg cv (stack.takeWhile (condPop tok)) out with
         | .error e =>
           .error (mkEvalError e input tok.position tok.lexeme.length)
         | .ok out2 => .ok (tok :: stack.dropWhile (condPop tok), out2)) ∧
    (Operator.from_type .EXPONENT).assoc = .RIGHT ∧
    (Operator.from_type .EXPONENT).prec = 90 ∧
    evalQ "2 ^ 2 ^ 3" none = mkSuccess 256 := by
  refine ⟨?_, rfl, rfl, by with_unfolding_all rfl⟩
  intro F inst1 inst2 ops cfg cv input tok stack
  induction stack with
  | nil => intro out; rfl
  | cons t rest ih =>
    intro out
    by_cases hc : condPop tok t
    · simp only [shuntPops, hc, if_true, List.takeWhile_cons, cond_true,
        List.dropWhile_cons, evalSeq]
      cases h : opEval ops cfg cv t.op out with
      | error e => simp [h]
      | ok out2 => simp only [h]; exact ih out2
    · simp only [shuntPops, hc, if_false, List.takeWhile_cons,
        List.dropWhile_cons, Bool.not_eq_true] at *
      simp [hc, evalSeq]

/-- C4: a `+`/`-` lexeme resolves to its unary kind exactly when the
edge flag is set, and to the binary kind otherwise; the flag is set
after a token exactly when that token is an operator other than a
right parenthesis (and the engine starts with the flag set, covering
the absent-predecessor case); the unary chain
`"+-+-1++--++--++--+2-3+4"` evaluates to `1+2-3+4 = 4`. -/
theorem unary_binary_resolution :
    (∀ (p : Nat) (e : Bool),
       (mkToken "-" p e).op.typ =
         if e then OpType.UNARY_MINUS else OpType.SUBTRACT) ∧
    (∀ (p : Nat) (e : Bool),
       (mkToken "+" p e).op.typ =
         if e then OpType.UNARY_PLUS else OpType.ADD) ∧
    (∀ t : Token,
       nextEdge t = true ↔
         t.isNumber = false ∧ t.op.typ ≠ OpType.PAREN_R) ∧
    evalQ "+-+-1++--++--++--+2-3+4" none = mkSuccess 4 := by
  refine ⟨?_, ?_, ?_, by with_unfolding_all rfl⟩
  · intro p e; cases e <;> rfl
  · intro p e; cases e <;> rfl
  · intro t
    simp [nextEdge, Bool.and_eq_true, Bool.not_eq_true']

/-- C6: when the validation scan of the normalized string finds an
unmatched run, the result is `SYNTAX_ERROR` carrying the normalized
string and exactly that run's byte offset and length — also when
valid tokens surround the run, as in `"1a"`, `"abc"` and
`"1 + 2 # 3"`. -/
theorem validation_syntax_error_span :
    (∀ (s : String) (cv : Option ℚ) (p L : Nat),
       firstGap (normalizeStr s).data = some (p, L) →
       evalQ s cv = mkParseError .SYNTAX_ERROR (normalizeStr s) p L) ∧
    evalQ "1a" none = mkParseError .SYNTAX_ERROR "1a" 1 1 ∧
    evalQ "abc" none = mkParseError .SYNTAX_ERROR "abc" 0 3 ∧
    evalQ "1 + 2 # 3" none = mkParseError .SYNTAX_ERROR "1 + 2 # 3" 6 1 := by
  refine ⟨?_, by decide, by decide, by decide⟩
  intro s cv p L h
  simp only [evalQ, evaluate_expression, h]

/-- Witness for C6: the input `"#"` has the unmatched run `#` at
offset 0 of length 1 and is reported as that `SYNTAX_ERROR`. -/
theorem validation_syntax_error_span_witness :
    firstGap (normalizeStr "#").data = some (0, 1) ∧
    evalQ "#" none = mkParseError .SYNTAX_ERROR "#" 0 1 :=
  ⟨by decide, validation_syntax_error_span.1 "#" none 0 1 (by decide)⟩

/-- C8: evaluating the percentage operator with popped operand `v`
fails with `EXPECTED_CURRENT_VALUE` exactly when the ambient current
value is NaN (modelled `none`), and otherwise pushes `v * c / 100`;
the times operator behaves the same with `v * c`; `"50%"` with no
current value is that error, and with current value 1 succeeds with
1/2. -/
theorem percentage_times_current_value :
    (∀ {F : Type} [inst1 : LinearOrderedField F] [inst2 : FloorRing F]
       (ops : TransOps F) (cfg : Config) (cv : Option F) (v : F)
       (rest : List F),
       opEval ops cfg cv (Operator.from_type .PERCENTAGE) (v :: rest) =
         (match cv with
          | none => .error .EXPECTED_CURRENT_VALUE
          | some c => .ok ((v * c / 100) :: rest)) ∧
       opEval ops cfg cv (Operator.from_type .TIMES) (v :: rest) =
         (match cv with
          | none => .error .EXPECTED_CURRENT_VALUE
          | some c => .ok ((v * c) :: rest))) ∧
    evalQ "50%" none = mkEvalError .EXPECTED_CURRENT_VALUE "50%" 2 1 ∧
    evalQ "50%" (some 1) = mkSuccess (1 / 2) := by
  refine ⟨?_, by with_unfolding_all rfl, by with_unfolding_all rfl⟩
  intro F inst1 inst2 ops cfg cv v rest
  constructor <;> cases cv <;> rfl

/-- C9: an operator whose degree exceeds the operand-stack depth
evaluates to `EXPECTED_MORE_ARGUMENTS` (the check precedes every pop
and arithmetic action); `"+"`, `"1 *"`, `"-"` and `"--"` all produce
that error. -/
theorem arity_check :
    (∀ {F : Type} [inst1 : LinearOrderedField F] [inst2 : FloorRing F]
       (ops : TransOps F) (cfg : Config) (cv : Option F)
       (op : Operator) (values : List F),
       values.length < op.degree →
       opEval ops cfg cv op values = .error .EXPECTED_MORE_ARGUMENTS) ∧
    evalQ "+" none = mkEvalError .EXPECTED_MORE_ARGUMENTS "+" 0 1 ∧
    evalQ "1 *" none = mkEvalError .EXPECTED_MORE_ARGUMENTS "1 *" 2 1 ∧
    evalQ "-" none = mkEvalError .EXPECTED_MORE_ARGUMENTS "-" 0 1 ∧
    evalQ "--" none = mkEvalError .EXPECTED_MORE_ARGUMENTS "--" 1 1 := by
  refine ⟨?_, by with_unfolding_all rfl, by with_unfolding_all rfl,
    by with_unfolding_all rfl, by with_unfolding_all rfl⟩
  intro F inst1 inst2 ops cfg cv op values h
  unfold opEval
  rw [if_pos h]

/-- Witness for C9: the binary add operator on an empty operand stack
fails with `EXPECTED_MORE_ARGUMENTS`. -/
theorem arity_check_witness :
    opEval ratOps ⟨true⟩ none (Operator.from_type .ADD) ([] : List ℚ) =
      .error .EXPECTED_MORE_ARGUMENTS :=
  arity_check.1 ratOps ⟨true⟩ none (Operator.from_type .ADD) [] (by decide)

/-- C7: a right parenthesis read on an empty operator stack is
`MISMATCHED_PARENS` at the parenthesis' position; so is emptying the
stack (after successful pops) without finding a left parenthesis; a
left parenthesis remaining on the stack when the token stream ends
(reached after successful pops) is `MISMATCHED_PARENS` at position 0;
`"(1))"`, `"((1)"` and `"1(1+"` all produce `MISMATCHED_PARENS`. -/
theorem mismatched_parens :
    (∀ {F : Type} [inst1 : LinearOrderedField F] [inst2 : FloorRing F]
       (ops : TransOps F) (cfg : Config) (cv : Option F) (input : String)
       (tok : Token) (out : List F),
       closeParen ops cfg cv input tok [] out =
         .error (mkParseError .MISMATCHED_PARENS input tok.position 0)) ∧
    (∀ {F : Type} [inst1 : LinearOrderedField F] [inst2 : FloorRing F]
       (ops : TransOps F) (cfg : Config) (cv : Option F) (input : String)
       (tok : Token) (stack : List Token) (out out2 : List F),
       (∀ t ∈ stack, t.op.typ ≠ OpType.PAREN_L) →
       evalSeq ops cfg cv stack out = .ok out2 →
       closeParen ops cfg cv input tok stack out =
         .error (mkParseError .MISMATCHED_PARENS input tok.position 0)) ∧
    (∀ {F : Type} [inst1 : LinearOrderedField F] [inst2 : FloorRing F]
       (ops : TransOps F) (cfg : Config) (cv : Option F) (input : String)
       (pre : List Token) (t : Token) (rest : List Token)
       (out out2 : List F),
       (∀ u ∈ pre, u.op.typ ≠ OpType.PAREN_L) →
       t.op.typ = OpType.PAREN_L →
       evalSeq ops cfg cv pre out = .ok out2 →
       drainStack ops cfg cv input (pre ++ t :: rest) out =
         .error (mkParseError .MISMATCHED_PARENS input 0 0)) ∧
    evalQ "(1))" none = mkParseError .MISMATCHED_PARENS "(1))" 3 0 ∧
    evalQ "((1)" none = mkParseError .MISMATCHED_PARENS "((1)" 0 0 ∧
    evalQ "1(1+" none = mkParseError .MISMATCHED_PARENS "1(1+" 0 0 := by
  refine ⟨?_, ?_, ?_, by with_unfolding_all rfl, by with_unfolding_all rfl,
    by with_unfolding_all rfl⟩
  · intro F inst1 inst2 ops cfg cv input tok out
    rfl
  · intro F inst1 inst2 ops cfg cv input tok stack
    induction stack with
    | nil => intro out out2 hnl hseq; rfl
    | cons t rest ih =>
      intro out out2 hnl hseq
      have ht : t.op.typ ≠ OpType.PAREN_L := hnl t (by simp)
      simp only [closeParen, evalSeq] at *
      rw [if_neg ht]
      cases he : opEval ops cfg cv t.op out with
      | error e => simp only [he] at hseq; cases hseq
      | ok out3 =>
        simp only [he] at hseq ⊢
        exact ih out3 out2 (fun u hu => hnl u (by simp [hu])) hseq
  · intro F inst1 inst2 ops cfg cv input pre
    induction pre with
    | nil =>
      intro t rest out out2 hnl ht hseq
      simp only [List.nil_append, drainStack]
      rw [if_pos ht]
    | cons u pre2 ih =>
      intro t rest out out2 hnl ht hseq
      have hu : u.op.typ ≠ OpType.PAREN_L := hnl u (by simp)
      simp only [List.cons_append, drainStack, evalSeq] at *
      rw [if_neg hu]
      cases he : opEval ops cfg cv u.op out with
      | error e => simp only [he] at hseq; cases hseq
      | ok out3 =>
        simp only [he] at hseq ⊢
        exact ih t rest out3 out2 (fun w hw => hnl w (by simp [hw])) ht hseq

/-- Witness for C7: closing a parenthesis over the one-element stack
holding a binary plus (with two operands available, so the pop
succeeds) empties the stack without a left parenthesis and reports
`MISMATCHED_PARENS`; the drain over `(` preceded by a successfully
evaluated unary minus likewise. -/
theorem mismatched_parens_witness :
    closeParen ratOps ⟨true⟩ none "x" (mkToken ")" 3 false)
        [mkToken "+" 1 false] [2, 1] =
      .error (mkParseError .MISMATCHED_PARENS "x" 3 0) ∧
    drainStack ratOps ⟨true⟩ none "y"
        [mkToken "-" 1 true, mkToken "(" 0 true] [5] =
      .error (mkParseError .MISMATCHED_PARENS "y" 0 0) :=
  ⟨mismatched_parens.2.1 ratOps ⟨true⟩ none "x" (mkToken ")" 3 false)
      [mkToken "+" 1 false] [2, 1] [3]
      (by decide) (by with_unfolding_all rfl),
   mismatched_parens.2.2.1 ratOps ⟨true⟩ none "y"
      [mkToken "-" 1 true] (mkToken "(" 0 true) [] [5] [5 * (-1)]
      (by decide) (by decide) (by with_unfolding_all rfl)⟩

/-- Every error produced by the default-operator pop loop carries the
normalized input and is an evaluation error. -/
theorem shuntPops_error_fields {F : Type} [LinearOrderedField F]
    [FloorRing F] (ops : TransOps F) (cfg : Config) (cv : Option F)
    (input : String) (tok : Token) :
    ∀ (stack : List Token) (out : List F) (r : Result F),
      shuntPops ops cfg cv input tok stack out = .error r →
      r.filtered_expression = input ∧
      (r.status = .EVALUATION_ERROR ∧ r.parsing_error = .NONE ∨
       r.status = .PARSING_ERROR ∧
         r.parsing_error = .MISMATCHED_PARENS) := by
  intro stack
  induction stack with
  | nil => intro out r h; cases h
  | cons t rest ih =>
    intro out r h
    simp only [shuntPops] at h
    by_cases hc : condPop tok t = true
    · rw [if_pos hc] at h
      cases he : opEval ops cfg cv t.op out with
      | error e =>
        simp only [he] at h
        injection h with h
        subst h
        exact ⟨rfl, Or.inl ⟨rfl, rfl⟩⟩
      | ok out2 =>
        simp only [he] at h
        exact ih out2 r h
    · rw [if_neg hc] at h
      cases h

/-- Every error produced by the right-parenthesis loop carries the
normalized input and is an evaluation error or `MISMATCHED_PARENS`. -/
theorem closeParen_error_fields {F : Type} [LinearOrderedField F]
    [FloorRing F] (ops : TransOps F) (cfg : Config) (cv : Option F)
    (input : String) (tok : Token) :
    ∀ (stack : List Token) (out : List F) (r : Result F),
      closeParen ops cfg cv input tok stack out = .error r →
      r.filtered_expression = input ∧
      (r.status = .EVALUATION_ERROR ∧ r.parsing_error = .NONE ∨
       r.status = .PARSING_ERROR ∧
         r.parsing_error = .MISMATCHED_PARENS) := by
  intro stack
  induction stack with
  | nil =>
    intro out r h
    injection h with h
    subst h
    exact ⟨rfl, Or.inr ⟨rfl, rfl⟩⟩
  | cons t rest ih =>
    intro out r h
    simp only [closeParen] at h
    by_cases hp : t.op.typ = OpType.PAREN_L
    · rw [if_pos hp] at h; cases h
    · rw [if_neg hp] at h
      cases he : opEval ops cfg cv t.op out with
      | error e =>
        simp only [he] at h
        injection h with h
        subst h
        exact ⟨rfl, Or.inl ⟨rfl, rfl⟩⟩
      | ok out2 =>
        simp only [he] at h
        exact ih out2 r h

/-- Every error produced by the final drain loop carries the
normalized input and is an evaluation error or `MISMATCHED_PARENS`. -/
theorem drainStack_error_fields {F : Type} [LinearOrderedField F]
    [FloorRing F] (ops : TransOps F) (cfg : Config) (cv : Option F)
    (input : String) :
    ∀ (stack : List Token) (out : List F) (r : Result F),
      drainStack ops cfg cv input stack out = .error r →
      r.filtered_expression = input ∧
      (r.status = .EVALUATION_ERROR ∧ r.parsing_error = .NONE ∨
       r.status = .PARSING_ERROR ∧
         r.parsing_error = .MISMATCHED_PARENS) := by
  intro stack
  induction stack with
  | nil => intro out r h; cases h
  | cons t rest ih =>
    intro out r h
    simp only [drainStack] at h
    by_cases hp : t.op.typ = OpType.PAREN_L
    · rw [if_pos hp] at h
      injection h with h
      subst h
      exact ⟨rfl, Or.inr ⟨rfl, rfl⟩⟩
    · rw [if_neg hp] at h
      cases he : opEval ops cfg cv t.op out with
      | error e =>
        simp only [he] at h
        injection h with h
        subst h
        exact ⟨rfl, Or.inl ⟨rfl, rfl⟩⟩
      | ok out2 =>
        simp only [he] at h
        exact ih out2 r h

/-- Every error produced by the main loop carries the normalized
input and is an evaluation error or `MISMATCHED_PARENS`. -/
theorem shuntLoop_error_fields {F : Type} [LinearOrderedField F]
    [FloorRing F] (ops : TransOps F) (cfg : Config) (cv : Option F)
    (input : String) :
    ∀ (toks stack : List Token) (out : List F) (r : Result F),
      shuntLoop ops cfg cv input toks stack out = .error r →
      r.filtered_expression = input ∧
      (r.status = .EVALUATION_ERROR ∧ r.parsing_error = .NONE ∨
       r.status = .PARSING_ERROR ∧
         r.parsing_error = .MISMATCHED_PARENS) := by
  intro toks
  induction toks with
  | nil =>
    intro stack out r h
    exact drainStack_error_fields ops cfg cv input stack out r h
  | cons tok rest ih =>
    intro stack out r h
    simp only [shuntLoop] at h
    by_cases hnum : tok.isNumber = true
    · rw [if_pos hnum] at h
      exact ih stack _ r h
    · rw [if_neg hnum] at h
      split at h
      · exact ih (tok :: stack) out r h
      · cases hcp : closeParen ops cfg cv input tok stack out with
        | error r2 =>
          rw [hcp] at h
          injection h with h
          exact h ▸ closeParen_error_fields ops cfg cv input tok stack out r2 hcp
        | ok p =>
          obtain ⟨stack2, out2⟩ := p
          rw [hcp] at h
          exact ih stack2 out2 r h
      · cases hsp : shuntPops ops cfg cv input tok stack out with
        | error r2 =>
          rw [hsp] at h
          injection h with h
          exact h ▸ shuntPops_error_fields ops cfg cv input tok stack out r2 hsp
        | ok p =>
          obtain ⟨stack2, out2⟩ := p
          rw [hsp] at h
          exact ih stack2 out2 r h

/-- C5 counterexample: the success result does not carry the
normalized expression — the success constructor stores the empty
string, although the normalized form of `"1"` is `"1"`. -/
theorem result_fields_counterexample :
    evalQ "1" none = mkSuccess 1 ∧
    (evalQ "1" none).filtered_expression = "" ∧
    normalizeStr "1" = "1" := by
  refine ⟨by with_unfolding_all rfl, by with_unfolding_all rfl, by decide⟩

/-- C5 as amended: validation, evaluation and parenthesis errors carry
the normalized expression, but the success result, the `EMPTY` result
and the post-reduction `SYNTAX_ERROR` carry the empty string; the
success result uses the sentinel position `(size_t)-1` with zero
length, while `EMPTY` and the post-reduction `SYNTAX_ERROR` use
position 0 with zero length. -/
theorem result_fields_amended :
    ∀ (s : String) (cv : Option ℚ),
      ((evalQ s cv).status = .SUCCESS →
         (evalQ s cv).filtered_expression = "" ∧
         (evalQ s cv).error_position = SIZE_T_MINUS_ONE ∧
         (evalQ s cv).error_length = 0) ∧
      ((evalQ s cv).parsing_error = .EMPTY →
         (evalQ s cv).filtered_expression = "" ∧
         (evalQ s cv).error_position = 0 ∧
         (evalQ s cv).error_length = 0) ∧
      ((evalQ s cv).status = .EVALUATION_ERROR →
         (evalQ s cv).filtered_expression = normalizeStr s) ∧
      ((evalQ s cv).parsing_error = .MISMATCHED_PARENS →
         (evalQ s cv).filtered_expression = normalizeStr s) ∧
      ((evalQ s cv).parsing_error = .SYNTAX_ERROR →
         (evalQ s cv).filtered_expression = normalizeStr s ∨
         ((evalQ s cv).filtered_expression = "" ∧
          (evalQ s cv).error_position = 0 ∧
          (evalQ s cv).error_length = 0)) := by
  intro s cv
  rcases hg : firstGap (normalizeStr s).data with _ | ⟨p, L⟩
  · rcases hl : shuntLoop ratOps ⟨true⟩ cv (normalizeStr s)
        (classifyTokens true (scanToks (normalizeStr s).data 0)) [] []
      with r | out
    · have he : evalQ s cv = r := by
        simp only [evalQ, evaluate_expression, hg, hl]
      obtain ⟨hfil, hca⟩ :=
        shuntLoop_error_fields ratOps ⟨true⟩ cv (normalizeStr s) _ [] [] r hl
      rw [he]
      rcases hca with ⟨hs, hp⟩ | ⟨hs, hp⟩ <;>
        refine ⟨?_, ?_, ?_, ?_, ?_⟩ <;> intro h <;> simp_all
    · have he : evalQ s cv = classifyOutput out := by
        simp only [evalQ, evaluate_expression, hg, hl]
      rw [he]
      rcases out with _ | ⟨v, _ | ⟨w, more⟩⟩ <;>
        refine ⟨?_, ?_, ?_, ?_, ?_⟩ <;> intro h <;>
          first
            | exact ⟨rfl, rfl, rfl⟩
            | exact Or.inr ⟨rfl, rfl, rfl⟩
            | cases h
  · have he : evalQ s cv = mkParseError .SYNTAX_ERROR (normalizeStr s) p L := by
      simp only [evalQ, evaluate_expression, hg]
    rw [he]
    refine ⟨?_, ?_, ?_, ?_, ?_⟩ <;> intro h <;>
      first
        | exact Or.inl rfl
        | cases h

/-- Witness for C5 (amended): the evaluation error for `"50%"` with no
current value carries the normalized expression. -/
theorem result_fields_amended_witness :
    (evalQ "50%" none).filtered_expression = normalizeStr "50%" :=
  (result_fields_amended "50%" none).2.2.1 (by with_unfolding_all rfl)

/-- The exponent case of `Operator::eval` in closed form: the
`ImaginaryNumber` guard tests `a < 0` and a *positive* `modf`
fractional part, otherwise `pow(a, b)` is pushed. -/
theorem opEval_exponent {F : Type} [LinearOrderedField F] [FloorRing F]
    (ops : TransOps F) (cfg : Config) (cv : Option F) (a b : F)
    (rest : List F) :
    opEval ops cfg cv (Operator.from_type .EXPONENT) (b :: a :: rest) =
      if a < 0 ∧ modfFrac b > 0 then .error .IMAGINARY_NUMBER
      else .ok (ops.powF a b :: rest) := rfl

/-- One successful step of the final drain loop. -/
theorem drainStack_cons_ok {F : Type} [LinearOrderedField F] [FloorRing F]
    (ops : TransOps F) (cfg : Config) (cv : Option F) (input : String)
    (t : Token) (rest : List Token) (out out2 : List F)
    (hnp : t.op.typ ≠ OpType.PAREN_L)
    (he : opEval ops cfg cv t.op out = .ok out2) :
    drainStack ops cfg cv input (t :: rest) out =
      drainStack ops cfg cv input rest out2 := by
  simp only [drainStack]
  rw [if_neg hnp, he]

/-- Draining a single exponent token over a two-value stack: the
`ImaginaryNumber` guard in closed form, with the token's position and
lexeme length on the error. -/
theorem drain_caret {F : Type} [LinearOrderedField F] [FloorRing F]
    (ops : TransOps F) (cfg : Config) (cv : Option F) (input : String)
    (p : Nat) (a b : F) :
    drainStack ops cfg cv input
        [⟨"^", p, .CARET, Operator.from_type .EXPONENT, 0⟩] [b, a] =
      (if a < 0 ∧ modfFrac b > 0
       then .error (mkEvalError .IMAGINARY_NUMBER input p 1)
       else .ok [ops.powF a b]) := by
  simp only [drainStack]
  rw [if_neg (show (⟨"^", p, .CARET, Operator.from_type .EXPONENT, 0⟩ :
        Token).op.typ ≠ OpType.PAREN_L from fun h => nomatch h)]
  rw [opEval_exponent]
  by_cases hc : a < 0 ∧ modfFrac b > 0
  · simp only [if_pos hc]
    rfl
  · simp only [if_neg hc]

/-- Over the rationals, the `modf` fractional part is positive exactly
for positive non-integers: `modf` is sign-preserving, so a negative
argument never has a positive fractional part. -/
theorem modfFrac_pos_iff (b : ℚ) :
    0 < modfFrac b ↔ 0 < b ∧ ¬∃ n : ℤ, (n : ℚ) = b := by
  unfold modfFrac truncToZero
  by_cases hb : b < 0
  · rw [if_pos hb]
    constructor
    · intro h
      exfalso
      have hf : ((Int.floor (-b) : ℤ) : ℚ) ≤ -b := Int.floor_le (-b)
      linarith
    · intro ⟨h0, _⟩
      linarith
  · rw [if_neg hb]
    push_neg at hb
    constructor
    · intro h
      constructor
      · rcases eq_or_lt_of_le hb with h0 | h0
        · exfalso
          rw [← h0] at h
          simp at h
        · exact h0
      · rintro ⟨n, rfl⟩
        simp at h
    · rintro ⟨h0, hn⟩
      have hne : b ≠ ((Int.floor b : ℤ) : ℚ) := by
        intro hEq
        exact hn ⟨Int.floor b, hEq.symm⟩
      have := Int.fract_pos.mpr hne
      rw [Int.fract] at this
      exact this

/-- `2 ^ 3.4` lies strictly between 10 and 11 (its fifth power is
`2 ^ 17 = 131072`, between `10^5` and `11^5`), so its `modf`
fractional part is positive. -/
theorem modfFrac_rpow_two_pos :
    0 < modfFrac ((2 : ℝ) ^ ((17 : ℝ) / 5)) := by
  have hb0 : (0 : ℝ) < (2 : ℝ) ^ ((17 : ℝ) / 5) :=
    Real.rpow_pos_of_pos (by norm_num) _
  have hb5 : ((2 : ℝ) ^ ((17 : ℝ) / 5)) ^ (5 : ℕ) = 131072 := by
    rw [← Real.rpow_natCast ((2 : ℝ) ^ ((17 : ℝ) / 5)) 5,
      ← Real.rpow_mul (by norm_num : (0 : ℝ) ≤ 2)]
    rw [show (17 : ℝ) / 5 * ((5 : ℕ) : ℝ) = ((17 : ℕ) : ℝ) by push_cast; ring]
    rw [Real.rpow_natCast]
    norm_num
  have h10 : (10 : ℝ) < (2 : ℝ) ^ ((17 : ℝ) / 5) := by
    apply lt_of_pow_lt_pow_left 5 (le_of_lt hb0)
    rw [hb5]
    norm_num
  have h11 : (2 : ℝ) ^ ((17 : ℝ) / 5) < 11 := by
    apply lt_of_pow_lt_pow_left 5 (by norm_num : (0 : ℝ) ≤ 11)
    rw [hb5]
    norm_num
  have hfl : Int.floor ((2 : ℝ) ^ ((17 : ℝ) / 5)) = 10 := by
    rw [Int.floor_eq_iff]
    constructor
    · push_cast
      linarith
    · push_cast
      linarith
  unfold modfFrac truncToZero
  rw [if_neg (not_lt.mpr (le_of_lt hb0))]
  rw [hfl]
  push_cast
  linarith

/-- C2 counterexample: with operands `a = -1` (pushed first) and
`b = -0.5` — a `b` with non-zero fractional part — the exponent
evaluation does NOT fail with `ImaginaryNumber`: `modf` is
sign-preserving, `modf(-0.5) = -0.5` is not `> 0`, so `pow` is
invoked; end to end, `"-1 ^ -0.5"` reports no evaluation error. -/
theorem exponent_negative_fraction_counterexample :
    opEval ratOps ⟨true⟩ none (Operator.from_type .EXPONENT)
        ([-(1 / 2), -1] : List ℚ) = .ok [qpow (-1) (-(1 / 2))] ∧
    modfFrac (-(1 / 2) : ℚ) = -(1 / 2) ∧
    (evalQ "-1 ^ -0.5" none).status = .SUCCESS ∧
    (evalQ "-1 ^ -0.5" none).evaluation_error = .NONE := by
  refine ⟨?_, ?_, ?_, ?_⟩ <;> with_unfolding_all rfl

/-- C2 (amended): evaluating the exponent operator with operands `a`
(pushed first) and `b` fails with `ImaginaryNumber` exactly when
`a < 0` and the sign-preserving `modf` fractional part of `b` is
positive — over the rationals, exactly when `b` is positive and not
an integer, so negative fractional `b` does not trigger the error —
and otherwise pushes `pow(a, b)`; with real-number semantics,
`"-1 ^ 2 ^ 3.4"` evaluates to the `ImaginaryNumber` error (at the
first `^`, offset 3). -/
theorem exponent_imaginary_amended :
    (∀ {F : Type} [inst1 : LinearOrderedField F] [inst2 : FloorRing F]
       (ops : TransOps F) (cfg : Config) (cv : Option F) (a b : F)
       (rest : List F),
       opEval ops cfg cv (Operator.from_type .EXPONENT) (b :: a :: rest) =
         if a < 0 ∧ modfFrac b > 0 then .error .IMAGINARY_NUMBER
         else .ok (ops.powF a b :: rest)) ∧
    (∀ b : ℚ, 0 < modfFrac b ↔ 0 < b ∧ ¬∃ n : ℤ, (n : ℚ) = b) ∧
    evaluate_expression
        (⟨Real.rpow, Real.sin, Real.cos, Real.tan, Real.exp 1, Real.pi⟩ :
          TransOps ℝ)
        "-1 ^ 2 ^ 3.4" ⟨true⟩ none =
      mkEvalError .IMAGINARY_NUMBER "-1 ^ 2 ^ 3.4" 3 1 := by
  refine ⟨fun ops cfg cv a b rest => opEval_exponent ops cfg cv a b rest,
    modfFrac_pos_iff, ?_⟩
  have hc1 : ((atofQ "1" : ℚ) : ℝ) = 1 := by
    rw [show atofQ "1" = 1 from by with_unfolding_all rfl]
    push_cast
    rfl
  have hc2 : ((atofQ "2" : ℚ) : ℝ) = 2 := by
    rw [show atofQ "2" = 2 from by with_unfolding_all rfl]
    push_cast
    rfl
  have hc34 : ((atofQ "3.4" : ℚ) : ℝ) = 17 / 5 := by
    rw [show atofQ "3.4" = 17 / 5 from by with_unfolding_all rfl]
    push_cast
    norm_num
  have he1 : opEval
      (⟨Real.rpow, Real.sin, Real.cos, Real.tan, Real.exp 1, Real.pi⟩ :
        TransOps ℝ) ⟨true⟩ none
      (Operator.from_type .EXPONENT)
      [(atofQ "3.4" : ℝ), (atofQ "2" : ℝ), (atofQ "1" : ℝ) * (-1)] =
      .ok [(2 : ℝ) ^ ((17 : ℝ) / 5), (atofQ "1" : ℝ) * (-1)] := by
    rw [opEval_exponent]
    rw [if_neg (by rintro ⟨hlt, _⟩; rw [hc2] at hlt; norm_num at hlt)]
    rw [hc2, hc34]
    rfl
  have hdrain : drainStack
      (⟨Real.rpow, Real.sin, Real.cos, Real.tan, Real.exp 1, Real.pi⟩ :
        TransOps ℝ) ⟨true⟩ none "-1 ^ 2 ^ 3.4"
      [⟨"^", 7, .CARET, Operator.from_type .EXPONENT, 0⟩,
       ⟨"^", 3, .CARET, Operator.from_type .EXPONENT, 0⟩]
      [(atofQ "3.4" : ℝ), (atofQ "2" : ℝ), (atofQ "1" : ℝ) * (-1)] =
      .error (mkEvalError .IMAGINARY_NUMBER "-1 ^ 2 ^ 3.4" 3 1) := by
    rw [drainStack_cons_ok
      (⟨Real.rpow, Real.sin, Real.cos, Real.tan, Real.exp 1, Real.pi⟩ :
        TransOps ℝ) ⟨true⟩ none "-1 ^ 2 ^ 3.4"
      ⟨"^", 7, .CARET, Operator.from_type .EXPONENT, 0⟩
      [⟨"^", 3, .CARET, Operator.from_type .EXPONENT, 0⟩]
      _ _ (fun h => nomatch h) he1]
    rw [drain_caret]
    rw [if_pos ⟨by rw [hc1]; norm_num, modfFrac_rpow_two_pos⟩]
  have hstep : shuntLoop
      (⟨Real.rpow, Real.sin, Real.cos, Real.tan, Real.exp 1, Real.pi⟩ :
        TransOps ℝ) ⟨true⟩ none "-1 ^ 2 ^ 3.4"
      (classifyTokens true (scanToks ("-1 ^ 2 ^ 3.4" : String).data 0))
      [] [] =
      drainStack
        (⟨Real.rpow, Real.sin, Real.cos, Real.tan, Real.exp 1, Real.pi⟩ :
          TransOps ℝ) ⟨true⟩ none "-1 ^ 2 ^ 3.4"
        [⟨"^", 7, .CARET, Operator.from_type .EXPONENT, 0⟩,
         ⟨"^", 3, .CARET, Operator.from_type .EXPONENT, 0⟩]
        [(atofQ "3.4" : ℝ), (atofQ "2" : ℝ), (atofQ "1" : ℝ) * (-1)] := rfl
  simp only [evaluate_expression]
  rw [show normalizeStr "-1 ^ 2 ^ 3.4" = "-1 ^ 2 ^ 3.4" from rfl]
  simp only [show firstGap ("-1 ^ 2 ^ 3.4" : String).data = none from rfl,
    hstep.trans hdrain]

/-- C10: unary minus has precedence 100, exponent has precedence 90,
and a unary minus before a numeric literal is reduced before a
following exponent: for number lexemes `s1`, `s2`, the token stream
of `"-s1 ^ s2"` evaluates to `pow((-s1), s2)` (under the
`ImaginaryNumber` guard), not `-(pow(s1, s2))`; in particular
`"-2 ^ 2"` is `(-2)^2 = 4`. -/
theorem unary_minus_precedence :
    (Operator.from_type .UNARY_MINUS).prec = 100 ∧
    (Operator.from_type .EXPONENT).prec = 90 ∧
    (∀ {F : Type} [inst1 : LinearOrderedField F] [inst2 : FloorRing F]
       (ops : TransOps F) (cfg : Config) (cv : Option F) (input : String)
       (s1 s2 : String) (p1 p2 p3 p4 : Nat),
       string_to_id s1 = .NONE → string_to_id s2 = .NONE →
       shuntLoop ops cfg cv input
         (classifyTokens true
           [(p1, "-".data), (p2, s1.data), (p3, "^".data), (p4, s2.data)])
         [] [] =
         (if (atofQ s1 : F) * (-1) < 0 ∧ modfFrac (atofQ s2 : F) > 0
          then .error (mkEvalError .IMAGINARY_NUMBER input p3 1)
          else .ok [ops.powF ((atofQ s1 : F) * (-1)) (atofQ s2 : F)])) ∧
    evalQ "-2 ^ 2" none = mkSuccess 4 := by
  refine ⟨rfl, rfl, ?_, by with_unfolding_all rfl⟩
  intro F inst1 inst2 ops cfg cv input s1 s2 p1 p2 p3 p4 h1 h2
  have e2 : mkToken s1 p2 true =
      ⟨s1, p2, .NONE, Operator.from_type .NONE, atofQ s1⟩ := by
    simp [mkToken, h1, id_to_operator]
  have e4 : mkToken s2 p4 true =
      ⟨s2, p4, .NONE, Operator.from_type .NONE, atofQ s2⟩ := by
    simp [mkToken, h2, id_to_operator]
  have etoks : classifyTokens true
      [(p1, "-".data), (p2, s1.data), (p3, "^".data), (p4, s2.data)] =
      [⟨"-", p1, .MINUS, Operator.from_type .UNARY_MINUS, 0⟩,
       ⟨s1, p2, .NONE, Operator.from_type .NONE, atofQ s1⟩,
       ⟨"^", p3, .CARET, Operator.from_type .EXPONENT, 0⟩,
       ⟨s2, p4, .NONE, Operator.from_type .NONE, atofQ s2⟩] := by
    calc (classifyTokens true
          [(p1, "-".data), (p2, s1.data), (p3, "^".data), (p4, s2.data)])
        = ⟨"-", p1, .MINUS, Operator.from_type .UNARY_MINUS, 0⟩ ::
            mkToken s1 p2 true ::
            classifyTokens (nextEdge (mkToken s1 p2 true))
              [(p3, "^".data), (p4, s2.data)] := rfl
      _ = ⟨"-", p1, .MINUS, Operator.from_type .UNARY_MINUS, 0⟩ ::
            (⟨s1, p2, .NONE, Operator.from_type .NONE, atofQ s1⟩ : Token) ::
            classifyTokens
              (nextEdge
                (⟨s1, p2, .NONE, Operator.from_type .NONE, atofQ s1⟩ : Token))
              [(p3, "^".data), (p4, s2.data)] := by rw [e2]
      _ = ⟨"-", p1, .MINUS, Operator.from_type .UNARY_MINUS, 0⟩ ::
            (⟨s1, p2, .NONE, Operator.from_type .NONE, atofQ s1⟩ : Token) ::
            (⟨"^", p3, .CARET, Operator.from_type .EXPONENT, 0⟩ : Token) ::
            mkToken s2 p4 true :: [] := rfl
      _ = _ := by rw [e4]
  rw [etoks]
  have hstep : shuntLoop ops cfg cv input
      [⟨"-", p1, .MINUS, Operator.from_type .UNARY_MINUS, 0⟩,
       ⟨s1, p2, .NONE, Operator.from_type .NONE, atofQ s1⟩,
       ⟨"^", p3, .CARET, Operator.from_type .EXPONENT, 0⟩,
       ⟨s2, p4, .NONE, Operator.from_type .NONE, atofQ s2⟩] [] [] =
      drainStack ops cfg cv input
        [⟨"^", p3, .CARET, Operator.from_type .EXPONENT, 0⟩]
        [(atofQ s2 : F), (atofQ s1 : F) * (-1)] := rfl
  rw [hstep, drain_caret]

/-- Witness for C10: with both literals `"2"`, the four-token stream
`- 2 ^ 2` reduces to the single value `(-2)^2 = 4`. -/
theorem unary_minus_precedence_witness :
    shuntLoop ratOps ⟨true⟩ none ""
        (classifyTokens true
          [(0, "-".data), (1, "2".data), (2, "^".data), (3, "2".data)])
        [] [] = .ok [(4 : ℚ)] :=
  (unary_minus_precedence.2.2.1 ratOps ⟨true⟩ none "" "2" "2" 0 1 2 3
      (by decide) (by decide)).trans (by with_unfolding_all rfl)

end MathParser
